import Mathlib

/-!
Shallow embedding of the `ridvay.redis.rate-limiter` core: the fixed-window
counter, the token-bucket limiter (fixed and sliding refill modes), the
concurrency-slot limiter, and the composite `Ratelimit` combinator.

Modelling choices, uniform across the file:

* JS number values are modelled as integers (`ℤ`; times are epoch
  milliseconds).  Every division performed by the source is immediately
  floored (`Math.floor` in TS, `math.floor` in Lua), modelled by `Int.fdiv`
  (floor division), which agrees with `⌊a / b⌋` over `ℚ` for positive
  divisors.
* Each Lua script runs atomically on one redis key, so it is embedded as a
  pure function from the key's previous content (`Option` of the record
  type, `none` = key absent) to the script's reply together with the write
  it performs on the key (`none` = the script wrote nothing).
* A redis instance is an association list from key strings to records;
  strategy-level operations thread it explicitly.  `Date.now()` is an
  explicit `now` argument.
* A strategy method that merely awaits a store call and can fail is
  embedded as a function of the store call's outcome (`Except` of the
  adapter failure), so that the method's own error handling is visible.
-/

/-- Result shape every limiter produces (`RateLimiterResult` in
`src/interfaces/RateLimiterStrategy.ts`): `success`, `remaining`, `reset`,
`limit`, `name`, and optional `metadata` (used by the concurrency strategy
for `currentConcurrentRequests`). -/
structure RateLimiterResult where
  success : Bool
  remaining : ℤ
  reset : ℤ
  limit : ℤ
  name : String
  metadata : Option ℤ := none
deriving DecidableEq

/-- Contents of one redis instance, keyed by strings. -/
abbrev KVStore (α : Type) := List (String × α)

/-- `GET`/`HGETALL` of a key. -/
def kvGet {α : Type} (st : KVStore α) (k : String) : Option α :=
  List.lookup k st

/-- Overwrite the content of key `k`. -/
def kvSet {α : Type} (st : KVStore α) (k : String) (v : α) : KVStore α :=
  (k, v) :: st.filter (fun p => !(p.1 == k))

/-- `DEL k`. -/
def kvDel {α : Type} (st : KVStore α) (k : String) : KVStore α :=
  st.filter (fun p => !(p.1 == k))

/-- Apply a script's write (`none` = no write) to a key's previous content. -/
def applyWrite {α : Type} (cur : Option α) (w : Option α) : Option α :=
  match w with
  | none => cur
  | some v => some v

/-! ## Token bucket strategy (`src/strategies/tokenBucketStrategy.ts`) -/

/-- `WindowType` enum of `tokenBucketStrategy.ts`. -/
inductive WindowType where
  | SLIDING
  | FIXED
deriving DecidableEq

/-- Constructor state of `TokenBucketStrategy`: `capacity`, `interval` (ms),
`takeRate`, `refillRate` (defaulted to `capacity` when the constructor gets
`null`), `windowType`, and the key prefix (field `pfx` here). -/
structure TBConfig where
  capacity : ℤ
  interval : ℤ
  takeRate : ℤ
  refillRate : ℤ
  windowType : WindowType
  pfx : String
deriving DecidableEq

/-- The redis hash a bucket key holds: field 1 is `tokens`; field 2 (called
`stamp` here) is `lastRefill` in sliding mode and `windowStart` in fixed
mode; `ttl` is the `pexpire` value set by the last write. -/
structure TBRecord where
  tokens : ℤ
  stamp : ℤ
  ttl : ℤ
deriving DecidableEq

/-- Reply `{flag, remaining, reset}` of a token-bucket script (`flag` is the
Lua `1`/`0` success marker) together with the write it performs. -/
structure TBOut where
  flag : ℤ
  remaining : ℤ
  reset : ℤ
  write : Option TBRecord
deriving DecidableEq

/-- `slidingWindowScript`: refill by `math.floor(timePassed * refillRate /
interval)` capped at `capacity`; reject without writing when the refilled
count is below `takeRate`, else consume and persist `(tokens, now)` with
expiry `interval`. An absent key is read as `tokens = capacity`,
`lastRefill = now`. -/
def TokenBucketStrategy.slidingWindowScript (now capacity interval refillRate takeRate : ℤ)
    (bucket : Option TBRecord) : TBOut :=
  let tokens0 : ℤ :=
    match bucket with
    | none => capacity
    | some b => b.tokens
  let lastRefill : ℤ :=
    match bucket with
    | none => now
    | some b => b.stamp
  let timePassed := now - lastRefill
  let tokensToAdd := Int.fdiv (timePassed * refillRate) interval
  let tokens1 := min capacity (tokens0 + tokensToAdd)
  if tokens1 < takeRate then
    ⟨0, tokens1, lastRefill + interval, none⟩
  else
    ⟨1, tokens1 - takeRate, now + interval, some ⟨tokens1 - takeRate, now, interval⟩⟩

/-- `fixedWindowScript`: no refill; `bucket[2] or capacity`, `bucket[4] or
now`; reject without writing when `tokens < takeRate`, else consume and
persist `(tokens, windowStart)` with expiry `windowSize`. -/
def TokenBucketStrategy.fixedWindowScript (now capacity windowSize takeRate : ℤ)
    (bucket : Option TBRecord) : TBOut :=
  let tokens0 : ℤ :=
    match bucket with
    | none => capacity
    | some b => b.tokens
  let windowStart : ℤ :=
    match bucket with
    | none => now
    | some b => b.stamp
  if tokens0 < takeRate then
    ⟨0, tokens0, windowStart + windowSize, none⟩
  else
    ⟨1, tokens0 - takeRate, windowStart + windowSize,
      some ⟨tokens0 - takeRate, windowStart, windowSize⟩⟩

/-- `updateTokensSliding`: same text as `slidingWindowScript` with the
caller-supplied `tokensToSubtract` in place of `takeRate`. -/
def TokenBucketStrategy.updateTokensSliding (now capacity interval refillRate tokensToSubtract : ℤ)
    (bucket : Option TBRecord) : TBOut :=
  let tokens0 : ℤ :=
    match bucket with
    | none => capacity
    | some b => b.tokens
  let lastRefill : ℤ :=
    match bucket with
    | none => now
    | some b => b.stamp
  let timePassed := now - lastRefill
  let tokensToAdd := Int.fdiv (timePassed * refillRate) interval
  let tokens1 := min capacity (tokens0 + tokensToAdd)
  if tokens1 < tokensToSubtract then
    ⟨0, tokens1, lastRefill + interval, none⟩
  else
    ⟨1, tokens1 - tokensToSubtract, now + interval,
      some ⟨tokens1 - tokensToSubtract, now, interval⟩⟩

/-- `updateTokensFixed`: same text as `fixedWindowScript` with the
caller-supplied `tokensToSubtract` in place of `takeRate`. -/
def TokenBucketStrategy.updateTokensFixed (now capacity windowSize tokensToSubtract : ℤ)
    (bucket : Option TBRecord) : TBOut :=
  let tokens0 : ℤ :=
    match bucket with
    | none => capacity
    | some b => b.tokens
  let windowStart : ℤ :=
    match bucket with
    | none => now
    | some b => b.stamp
  if tokens0 < tokensToSubtract then
    ⟨0, tokens0, windowStart + windowSize, none⟩
  else
    ⟨1, tokens0 - tokensToSubtract, windowStart + windowSize,
      some ⟨tokens0 - tokensToSubtract, windowStart, windowSize⟩⟩

/-- `getCurrentWindow`: `Math.floor(Date.now() / interval) * interval`. -/
def TokenBucketStrategy.getCurrentWindow (cfg : TBConfig) (now : ℤ) : ℤ :=
  Int.fdiv now cfg.interval * cfg.interval

/-- `getKey`: fixed mode embeds the window start in the key
(template literal with braces around the identifier), sliding mode does
not. -/
def TokenBucketStrategy.getKey (cfg : TBConfig) (identifier : String) (now : ℤ) : String :=
  match cfg.windowType with
  | .FIXED =>
      cfg.pfx ++ "/bt/\x7b" ++ identifier ++ "\x7d/" ++
        toString (TokenBucketStrategy.getCurrentWindow cfg now)
  | .SLIDING => cfg.pfx ++ identifier

/-- The key deleted by `reset` in FIXED mode:
`` `${this.prefix}${identifier}:${currentWindow}` ``.  (Note this is not
the template `getKey` uses.) -/
def TokenBucketStrategy.resetKeyFixed (cfg : TBConfig) (identifier : String) (now : ℤ) : String :=
  cfg.pfx ++ identifier ++ ":" ++ toString (TokenBucketStrategy.getCurrentWindow cfg now)

/-- `TokenBucketStrategy.isAllowed`: run the mode's script on the key, map
the reply to a `RateLimiterResult` (`success === 1`). -/
def TokenBucketStrategy.isAllowed (cfg : TBConfig) (identifier : String) (now : ℤ)
    (st : KVStore TBRecord) : RateLimiterResult × KVStore TBRecord :=
  let key := TokenBucketStrategy.getKey cfg identifier now
  let out :=
    match cfg.windowType with
    | .SLIDING =>
        TokenBucketStrategy.slidingWindowScript now cfg.capacity cfg.interval cfg.refillRate
          cfg.takeRate (kvGet st key)
    | .FIXED =>
        TokenBucketStrategy.fixedWindowScript now cfg.capacity cfg.interval cfg.takeRate
          (kvGet st key)
  ({ success := out.flag == (1 : ℤ)
     remaining := out.remaining
     reset := out.reset
     limit := cfg.capacity
     name := "TokenBucketStrategy" },
   match out.write with
   | none => st
   | some r => kvSet st key r)

/-- `TokenBucketStrategy.updateTokens`: like `isAllowed` but running the
`updateTokens*` scripts with the caller's `tokensToSubtract`. -/
def TokenBucketStrategy.updateTokens (cfg : TBConfig) (identifier : String)
    (tokensToSubtract : ℤ) (now : ℤ) (st : KVStore TBRecord) :
    RateLimiterResult × KVStore TBRecord :=
  let key := TokenBucketStrategy.getKey cfg identifier now
  let out :=
    match cfg.windowType with
    | .SLIDING =>
        TokenBucketStrategy.updateTokensSliding now cfg.capacity cfg.interval cfg.refillRate
          tokensToSubtract (kvGet st key)
    | .FIXED =>
        TokenBucketStrategy.updateTokensFixed now cfg.capacity cfg.interval tokensToSubtract
          (kvGet st key)
  ({ success := out.flag == (1 : ℤ)
     remaining := out.remaining
     reset := out.reset
     limit := cfg.capacity
     name := "TokenBucketStrategy" },
   match out.write with
   | none => st
   | some r => kvSet st key r)

/-- `TokenBucketStrategy.reset`: FIXED mode deletes
`` `${prefix}${identifier}:${currentWindow}` ``; SLIDING mode deletes
`getKey identifier`. -/
def TokenBucketStrategy.reset (cfg : TBConfig) (identifier : String) (now : ℤ)
    (st : KVStore TBRecord) : KVStore TBRecord :=
  match cfg.windowType with
  | .FIXED => kvDel st (TokenBucketStrategy.resetKeyFixed cfg identifier now)
  | .SLIDING => kvDel st (TokenBucketStrategy.getKey cfg identifier now)

/-! ## Fixed window strategy (`src/strategies/fixedWindowStrategy.ts`) -/

/-- Constructor state of `FixedWindowStrategy`. -/
structure FWConfig where
  maxRequests : ℤ
  windowMs : ℤ
  pfx : String
deriving DecidableEq

/-- A window-counter key: the `INCR`ed integer and the TTL assigned by
`PEXPIRE` on the first write (`none` until then). -/
structure FWRecord where
  count : ℤ
  ttl : Option ℤ
deriving DecidableEq

/-- The fixed-window Lua script: `INCR`; on the first write (`count == (1 : ℤ)`)
`PEXPIRE window`; reply `{count <= limit, limit - count, window}`.  (Redis
maps the Lua boolean to `1`/`nil`, which the TS `success === 1` check turns
back into this Bool.)  The write always happens; it is returned as the
key's new record. -/
def FixedWindowStrategy.script (limit window : ℤ) (cur : Option FWRecord) :
    (Bool × ℤ × ℤ) × FWRecord :=
  let count : ℤ :=
    (match cur with
     | none => 0
     | some r => r.count) + 1
  let ttl0 : Option ℤ :=
    match cur with
    | none => none
    | some r => r.ttl
  let rec1 : FWRecord := ⟨count, if count == (1 : ℤ) then some window else ttl0⟩
  ((decide (count ≤ limit), limit - count, window), rec1)

/-- `getKey`: `` `${prefix}/fx/{identifier}/${window}` `` with
`window = Math.floor(Date.now() / windowMs)`. -/
def FixedWindowStrategy.getKey (cfg : FWConfig) (identifier : String) (now : ℤ) : String :=
  cfg.pfx ++ "/fx/\x7b" ++ identifier ++ "\x7d/" ++ toString (Int.fdiv now cfg.windowMs)

/-- `FixedWindowStrategy.isAllowed`. -/
def FixedWindowStrategy.isAllowed (cfg : FWConfig) (identifier : String) (now : ℤ)
    (st : KVStore FWRecord) : RateLimiterResult × KVStore FWRecord :=
  let key := FixedWindowStrategy.getKey cfg identifier now
  let out := FixedWindowStrategy.script cfg.maxRequests cfg.windowMs (kvGet st key)
  ({ success := out.1.1
     remaining := out.1.2.1
     reset := Int.fdiv now 1000 + Int.fdiv cfg.windowMs 1000
     limit := cfg.maxRequests
     name := "FixedWindowStrategy" },
   kvSet st key out.2)

/-- `FixedWindowStrategy.reset`: delete the current window's key. -/
def FixedWindowStrategy.reset (cfg : FWConfig) (identifier : String) (now : ℤ)
    (st : KVStore FWRecord) : KVStore FWRecord :=
  kvDel st (FixedWindowStrategy.getKey cfg identifier now)

/-! ## Concurrency strategy (`src/strategies/concurrencyStrategy.ts`) -/

/-- A concurrency key: the slot `count` and the TTL of the last
`SET PX`/`PEXPIRE`. -/
structure CSRecord where
  count : ℤ
  ttl : ℤ
deriving DecidableEq

/-- Reply `{flag, remaining, reset, currentCount}` of the acquire script,
plus the write it performs (`none` on the reject path, which writes
nothing). -/
structure CSOut where
  flag : ℤ
  remaining : ℤ
  reset : ℤ
  current : ℤ
  write : Option CSRecord
deriving DecidableEq

/-- The acquire Lua script of `ConcurrencyStrategy.isAllowed`: absent key
is created at `1` with TTL `timeout`; `count >= max_concurrent` rejects
with `{0, 0, timeout, count}`; otherwise `INCR` + `PEXPIRE timeout`. -/
def ConcurrencyStrategy.acquireScript (maxConcurrent timeout : ℤ) (cur : Option CSRecord) :
    CSOut :=
  match cur with
  | none => ⟨1, maxConcurrent - 1, timeout, 1, some ⟨1, timeout⟩⟩
  | some r =>
      if maxConcurrent ≤ r.count then
        ⟨0, 0, timeout, r.count, none⟩
      else
        ⟨1, maxConcurrent - (r.count + 1), timeout, r.count + 1, some ⟨r.count + 1, timeout⟩⟩

/-- The release Lua script: absent key is a no-op; `count <= 1` deletes the
key; otherwise `DECR` (TTL untouched).  The returned value is the key's new
content. -/
def ConcurrencyStrategy.releaseScript (cur : Option CSRecord) : Option CSRecord :=
  match cur with
  | none => none
  | some r => if r.count ≤ 1 then none else some ⟨r.count - 1, r.ttl⟩

/-- `ConcurrencyStrategy.isAllowed` on the identifier's key content:
build the `RateLimiterResult` (`reset = now + timeout-reply`, current count
in `metadata`) and apply the script's write. -/
def ConcurrencyStrategy.isAllowed (maxConcurrent timeout now : ℤ) (cur : Option CSRecord) :
    RateLimiterResult × Option CSRecord :=
  let out := ConcurrencyStrategy.acquireScript maxConcurrent timeout cur
  ({ success := out.flag == (1 : ℤ)
     remaining := out.remaining
     reset := now + out.reset
     limit := maxConcurrent
     name := "ConcurrencyStrategy"
     metadata := some out.current },
   applyWrite cur out.write)

/-- `ConcurrencyStrategy.reset`: `DEL` the identifier's key. -/
def ConcurrencyStrategy.reset (_cur : Option CSRecord) : Option CSRecord :=
  none

/-- Outcome of `wrap`: the wrapped function's value; the
`RateLimitExceededError` thrown on rejection, carrying the two numbers its
message interpolates (`result.remaining` printed as "Current count", and
the configured limit); or the wrapped function's own failure, re-thrown
after the `finally` release. -/
inductive WrapOutcome (ε α : Type) where
  | ok (a : α)
  | rateLimitExceededError (currentCount : ℤ) (limit : ℤ)
  | opError (e : ε)
deriving DecidableEq

/-- `ConcurrencyStrategy.wrap`: run `isAllowed`; on `success:false` throw
`RateLimitExceededError` built from `result.remaining` and
`maxConcurrentRequests`, never touching `fn`; on success run `fn` and
release the slot in a `finally`, so the release happens on both the return
and the throw path. `fn`'s behaviour is a pure `Except` outcome. -/
def ConcurrencyStrategy.wrap {ε α : Type} (maxConcurrent timeout now : ℤ)
    (fn : Except ε α) (cur : Option CSRecord) : WrapOutcome ε α × Option CSRecord :=
  let res := ConcurrencyStrategy.isAllowed maxConcurrent timeout now cur
  if res.1.success then
    match fn with
    | .ok a => (.ok a, ConcurrencyStrategy.releaseScript res.2)
    | .error e => (.opError e, ConcurrencyStrategy.releaseScript res.2)
  else
    (.rateLimitExceededError res.1.remaining res.1.limit, res.2)

/-- One concurrency-limiter operation on an identifier. -/
inductive CSOp where
  | acquire
  | release
deriving DecidableEq

/-- The store effect of one operation on the identifier's key. -/
def csApply (maxConcurrent timeout : ℤ) (op : CSOp) (cur : Option CSRecord) :
    Option CSRecord :=
  match op with
  | .acquire => applyWrite cur (ConcurrencyStrategy.acquireScript maxConcurrent timeout cur).write
  | .release => ConcurrencyStrategy.releaseScript cur

/-- Run a sequence of acquire/release operations. -/
def csRun (maxConcurrent timeout : ℤ) : List CSOp → Option CSRecord → Option CSRecord
  | [], cur => cur
  | op :: ops, cur => csRun maxConcurrent timeout ops (csApply maxConcurrent timeout op cur)

/-- The slot count a key content represents (absent key = no held slots). -/
def csCount : Option CSRecord → ℤ
  | none => 0
  | some r => r.count

/-! ## Composite limiter (`src/ratelimit.ts`) -/

/-- `Ratelimit.isAllowed`: evaluate each configured limiter in
configuration order against the shared store state (type `σ`), collect the
results, and return as soon as one has `success:false`. -/
def Ratelimit.isAllowed {σ : Type} (limiters : List (σ → RateLimiterResult × σ)) (s : σ) :
    List RateLimiterResult × σ :=
  match limiters with
  | [] => ([], s)
  | l :: rest =>
      let r := l s
      if r.1.success then
        let tail := Ratelimit.isAllowed rest r.2
        (r.1 :: tail.1, tail.2)
      else
        ([r.1], r.2)

/-- Reference sequential evaluation of every limiter, with no
short-circuit: the result each limiter would produce when all are run in
configuration order. -/
def evalSeq {σ : Type} : List (σ → RateLimiterResult × σ) → σ → List RateLimiterResult
  | [], _ => []
  | l :: rest, s => (l s).1 :: evalSeq rest (l s).2

/-- Truncate a result sequence at its first failure, keeping the failing
entry. -/
def stopAtFailure : List RateLimiterResult → List RateLimiterResult
  | [] => []
  | r :: rs => if r.success then r :: stopAtFailure rs else [r]

/-- `Ratelimit.reset`: `Promise.all(limiters.map(l => l.reset(id)))`.
`map` starts every constituent reset, each acting on its own limiter's
state (the list `ss`, one entry per limiter); every started reset runs to
completion even when another fails, and the combined call fails with the
first failure.  Modelled deterministically in configuration order: each
reset's new state is kept (or the old one if that reset itself failed),
and the first error in order, if any, is the overall outcome. -/
def Ratelimit.reset {σ ε : Type} : List (σ → Except ε σ) → List σ → Except ε Unit × List σ
  | [], ss => (.ok (), ss)
  | _ :: _, [] => (.ok (), [])
  | f :: fs, s :: ss =>
      let out := f s
      let tail := Ratelimit.reset fs ss
      match out with
      | .ok s2 => (tail.1, s2 :: tail.2)
      | .error e => (.error e, s :: tail.2)

/-- The first failure among the constituent resets, in configuration
order. -/
def firstResetFailure {σ ε : Type} : List (σ → Except ε σ) → List σ → Option ε
  | [], _ => none
  | _ :: _, [] => none
  | f :: fs, s :: ss =>
      match f s with
      | .error e => some e
      | .ok _ => firstResetFailure fs ss

/-- Failures a constituent `reset` can raise (`storeError` is the store
adapter's own failure value), together with the spec's composite wrapper.
Modelled from the spec: `CompositeResetFailure` ("raised by the composite
reset after attempting all constituent resets; wraps the first underlying
failure") has no counterpart anywhere in the source; the constructor
exists only so the spec's sentence about it can be stated and compared
with what the code returns. -/
inductive ResetError where
  | storeError (msg : String)
  | compositeResetFailure (first : String)
deriving DecidableEq

/-- Is this error the spec's `CompositeResetFailure`? -/
def ResetError.isCompositeResetFailure : ResetError → Bool
  | .compositeResetFailure _ => true
  | _ => false

/-! ## Error flow of individual limiter operations -/

/-- Error values flowing out of strategy operations: the store adapter's
failure value (`storeError(msg)`, e.g. a timeout), the generic
`new Error('Failed to check concurrency limit')` built inside
`ConcurrencyStrategy.isAllowed`'s catch block, and
`RateLimitExceededError`. -/
inductive LimiterError where
  | storeError (msg : String)
  | failedToCheckConcurrencyLimit
  | rateLimitExceededError (msg : String)
deriving DecidableEq

/-- `FixedWindowStrategy.isAllowed` as a function of the store call's
outcome (`reply` = the awaited `eval`): there is no try/catch, so a store
failure propagates unchanged. -/
def FixedWindowStrategy.isAllowedE (cfg : FWConfig) (now : ℤ)
    (reply : Except LimiterError (Bool × ℤ × ℤ)) : Except LimiterError RateLimiterResult :=
  match reply with
  | .error e => .error e
  | .ok out =>
      .ok { success := out.1
            remaining := out.2.1
            reset := Int.fdiv now 1000 + Int.fdiv cfg.windowMs 1000
            limit := cfg.maxRequests
            name := "FixedWindowStrategy" }

/-- `TokenBucketStrategy.isAllowed` as a function of the store call's
outcome: no try/catch. -/
def TokenBucketStrategy.isAllowedE (cfg : TBConfig)
    (reply : Except LimiterError (ℤ × ℤ × ℤ)) : Except LimiterError RateLimiterResult :=
  match reply with
  | .error e => .error e
  | .ok out =>
      .ok { success := out.1 == (1 : ℤ)
            remaining := out.2.1
            reset := out.2.2
            limit := cfg.capacity
            name := "TokenBucketStrategy" }

/-- `TokenBucketStrategy.updateTokens` as a function of the store call's
outcome: no try/catch (the reply handling is the same as `isAllowed`). -/
def TokenBucketStrategy.updateTokensE (cfg : TBConfig)
    (reply : Except LimiterError (ℤ × ℤ × ℤ)) : Except LimiterError RateLimiterResult :=
  match reply with
  | .error e => .error e
  | .ok out =>
      .ok { success := out.1 == (1 : ℤ)
            remaining := out.2.1
            reset := out.2.2
            limit := cfg.capacity
            name := "TokenBucketStrategy" }

/-- `ConcurrencyStrategy.isAllowed` as a function of the store call's
outcome, including its catch block: a `RateLimitExceededError` is
re-thrown as-is, any other failure is replaced by
`new Error('Failed to check concurrency limit')`. -/
def ConcurrencyStrategy.isAllowedE (maxConcurrent _timeout now : ℤ)
    (reply : Except LimiterError (ℤ × ℤ × ℤ × ℤ)) : Except LimiterError RateLimiterResult :=
  match reply with
  | .ok out =>
      .ok { success := out.1 == (1 : ℤ)
            remaining := out.2.1
            reset := now + out.2.2.1
            limit := maxConcurrent
            name := "ConcurrencyStrategy"
            metadata := some out.2.2.2 }
  | .error e =>
      match e with
      | .rateLimitExceededError m => .error (.rateLimitExceededError m)
      | _ => .error .failedToCheckConcurrencyLimit

/-- `ConcurrencyStrategy.release` as a function of the store call's
outcome: no try/catch. -/
def ConcurrencyStrategy.releaseE (reply : Except LimiterError ℤ) :
    Except LimiterError Unit :=
  match reply with
  | .error e => .error e
  | .ok _ => .ok ()

/-- The `reset` (`DEL`) of any of the three strategies as a function of the
store call's outcome: none of them has a try/catch. -/
def strategyResetE (reply : Except LimiterError ℤ) : Except LimiterError Unit :=
  match reply with
  | .error e => .error e
  | .ok _ => .ok ()

/-! ## Theorems -/

/-- Floor division of integers agrees with the rational floor `⌊a / b⌋`
when the divisor is positive. -/
theorem fdiv_eq_ratFloor (a b : ℤ) (h : 0 < b) :
    Int.fdiv a b = ⌊(a : ℚ) / (b : ℚ)⌋ := by
  have hb : ((b.toNat : ℕ) : ℤ) = b := Int.toNat_of_nonneg h.le
  have hq : ((b.toNat : ℕ) : ℚ) = (b : ℚ) := by
    exact_mod_cast congrArg (fun z : ℤ => (z : ℚ)) hb
  rw [← hq, Rat.floor_intCast_div_natCast, hb, Int.fdiv_eq_ediv]
  exact h.le

/-- Claim C1: for every sliding-mode token-bucket decide call on an
identifier whose stored bucket holds `(tokens, lastRefill)` (an absent
record is treated as `tokens = capacity`, `lastRefill = now`), the
operation adds `floor((now - lastRefill) * refillRate / interval)` tokens
capped at `capacity`; if the refilled token count is below `takeRate` it
returns `success:false` with `remaining` equal to the refilled count and
`resetAt = lastRefill + interval` and writes nothing to the store;
otherwise it subtracts `takeRate`, persists the new token count with
`lastRefill = now` and expiry `interval`, and returns `success:true` with
`resetAt = now + interval`. -/
theorem tokenBucket_slidingDecide_spec (cfg : TBConfig) (identifier : String)
    (now : ℤ) (st : KVStore TBRecord)
    (hmode : cfg.windowType = WindowType.SLIDING) (hint : 0 < cfg.interval) :
    let key := TokenBucketStrategy.getKey cfg identifier now
    let stored := kvGet st key
    let tokens0 := (stored.map TBRecord.tokens).getD cfg.capacity
    let lastRefill := (stored.map TBRecord.stamp).getD now
    let refilled := min cfg.capacity
      (tokens0 + ⌊(((now - lastRefill) * cfg.refillRate : ℤ) : ℚ) / ((cfg.interval : ℤ) : ℚ)⌋)
    let out := TokenBucketStrategy.isAllowed cfg identifier now st
    (refilled < cfg.takeRate →
        out.1.success = false ∧ out.1.remaining = refilled ∧
        out.1.reset = lastRefill + cfg.interval ∧ out.2 = st) ∧
    (cfg.takeRate ≤ refilled →
        out.1.success = true ∧ out.1.remaining = refilled - cfg.takeRate ∧
        out.1.reset = now + cfg.interval ∧
        out.2 = kvSet st key ⟨refilled - cfg.takeRate, now, cfg.interval⟩) := by
  intro key stored tokens0 lastRefill refilled out
  have hfl : ∀ x : ℤ, ⌊((x : ℤ) : ℚ) / ((cfg.interval : ℤ) : ℚ)⌋ = Int.fdiv x cfg.interval :=
    fun x => (fdiv_eq_ratFloor x _ hint).symm
  unfold_let out refilled tokens0 lastRefill stored
  simp only [TokenBucketStrategy.isAllowed, hmode, TokenBucketStrategy.slidingWindowScript, hfl]
  cases hst : kvGet st key with
  | none =>
      simp only [Option.map_none', Option.getD_none]
      split_ifs with hlt
      · exact ⟨fun _ => ⟨by simp, rfl, rfl, rfl⟩, fun h2 => absurd h2 (not_le.mpr hlt)⟩
      · exact ⟨fun h2 => absurd h2 hlt, fun _ => ⟨by simp, rfl, rfl, rfl⟩⟩
  | some b =>
      simp only [Option.map_some', Option.getD_some]
      split_ifs with hlt
      · exact ⟨fun _ => ⟨by simp, rfl, rfl, rfl⟩, fun h2 => absurd h2 (not_le.mpr hlt)⟩
      · exact ⟨fun h2 => absurd h2 hlt, fun _ => ⟨by simp, rfl, rfl, rfl⟩⟩

/-- Witness for C1: a concrete sliding-mode decide on an empty store
(capacity 10, takeRate 3) succeeds. -/
theorem tokenBucket_slidingDecide_spec_witness :
    (TokenBucketStrategy.isAllowed ⟨10, 1000, 3, 10, WindowType.SLIDING, "tb:"⟩ "u" 0 []).1.success
      = true := by
  have h := tokenBucket_slidingDecide_spec ⟨10, 1000, 3, 10, WindowType.SLIDING, "tb:"⟩ "u" 0 []
    rfl (by decide)
  exact (h.2 (by simp [kvGet])).1

/-- Reading back the key just written. -/
theorem kvGet_kvSet_self {α : Type} (st : KVStore α) (k : String) (v : α) :
    kvGet (kvSet st k v) k = some v := by
  simp [kvGet, kvSet, List.lookup]

/-- Claim C2: every fixed-window decide atomically increments the current
window's counter (setting its expiry to the window length on the first
write), succeeds iff the post-increment count is at most `maxRequests`,
and reports `remaining = maxRequests - count`, which may go negative; with
`maxRequests = 0` the very first decide in a window returns
`success:false`.  The hypothesis `hcounts` says the stored counter, when
present, has been `INCR`ed at least once, which is the only way redis
creates it. -/
theorem fixedWindow_decide_spec (cfg : FWConfig) (identifier : String) (now : ℤ)
    (st : KVStore FWRecord)
    (hcounts : ∀ r, kvGet st (FixedWindowStrategy.getKey cfg identifier now) = some r →
        1 ≤ r.count) :
    let key := FixedWindowStrategy.getKey cfg identifier now
    let prev := kvGet st key
    let count := (prev.map FWRecord.count).getD 0 + 1
    let out := FixedWindowStrategy.isAllowed cfg identifier now st
    out.1.success = decide (count ≤ cfg.maxRequests) ∧
    out.1.remaining = cfg.maxRequests - count ∧
    kvGet out.2 key =
      some ⟨count,
            if prev.isSome then (prev.map FWRecord.ttl).getD none else some cfg.windowMs⟩ ∧
    (cfg.maxRequests = 0 → prev = none → out.1.success = false) := by
  intro key prev count out
  unfold_let out count prev
  simp only [FixedWindowStrategy.isAllowed, FixedWindowStrategy.script]
  cases hst : kvGet st key with
  | none =>
      refine ⟨rfl, by simp, ?_, ?_⟩
      · simp [kvGet_kvSet_self]
      · intro hmax _
        simp [hmax]
  | some r =>
      have hr := hcounts r hst
      have hne : (r.count + 1 == (1 : ℤ)) = false := by
        simp only [beq_eq_false_iff_ne, ne_eq]
        omega
      refine ⟨rfl, by simp, ?_, ?_⟩
      · simp [kvGet_kvSet_self, hne]
      · intro _ hnone
        exact absurd hnone (by simp)

/-- Witness for C2: the first decide of a window with `maxRequests = 5`
reports `remaining = 4`. -/
theorem fixedWindow_decide_spec_witness :
    (FixedWindowStrategy.isAllowed ⟨5, 60000, "fw:"⟩ "u" 0 []).1.remaining = 4 := by
  have h := fixedWindow_decide_spec ⟨5, 60000, "fw:"⟩ "u" 0 [] (fun r hr => nomatch hr)
  simpa [kvGet] using h.2.1

/-- The spec's token-bucket record invariant: `0 ≤ tokens ≤ capacity`
(an absent record stands for a full bucket). -/
def TBInv (capacity : ℤ) : Option TBRecord → Prop
  | none => True
  | some r => 0 ≤ r.tokens ∧ r.tokens ≤ capacity

/-- The sliding script preserves the record invariant for nonnegative
costs. -/
theorem TB_sliding_inv (now capacity interval refillRate cost : ℤ) (b : Option TBRecord)
    (hcost : 0 ≤ cost) (hb : TBInv capacity b) :
    TBInv capacity
      (applyWrite b
        (TokenBucketStrategy.slidingWindowScript now capacity interval refillRate cost b).write) := by
  cases b with
  | none =>
      simp only [TokenBucketStrategy.slidingWindowScript]
      split_ifs with h
      · exact trivial
      · push_neg at h
        have h1 : min capacity (capacity + Int.fdiv ((now - now) * refillRate) interval)
            ≤ capacity := min_le_left _ _
        simp only [applyWrite, TBInv]
        exact ⟨by omega, by omega⟩
  | some r =>
      simp only [TokenBucketStrategy.slidingWindowScript]
      split_ifs with h
      · exact hb
      · push_neg at h
        have h1 : min capacity (r.tokens + Int.fdiv ((now - r.stamp) * refillRate) interval)
            ≤ capacity := min_le_left _ _
        simp only [applyWrite, TBInv]
        exact ⟨by omega, by omega⟩

/-- The fixed script preserves the record invariant for nonnegative
costs. -/
theorem TB_fixed_inv (now capacity windowSize cost : ℤ) (b : Option TBRecord)
    (hcost : 0 ≤ cost) (hb : TBInv capacity b) :
    TBInv capacity
      (applyWrite b
        (TokenBucketStrategy.fixedWindowScript now capacity windowSize cost b).write) := by
  cases b with
  | none =>
      simp only [TokenBucketStrategy.fixedWindowScript]
      split_ifs with h
      · exact trivial
      · push_neg at h
        simp only [applyWrite, TBInv]
        exact ⟨by omega, by omega⟩
  | some r =>
      simp only [TokenBucketStrategy.fixedWindowScript]
      split_ifs with h
      · exact hb
      · push_neg at h
        obtain ⟨hr0, hr1⟩ := hb
        simp only [applyWrite, TBInv]
        exact ⟨by omega, by omega⟩

/-- Requesting more than the refilled balance in the sliding update script
fails without writing and reports the balance itself. -/
theorem TB_sliding_overRequest (now capacity interval refillRate cost : ℤ)
    (b : Option TBRecord) :
    let avail := min capacity
      ((b.map TBRecord.tokens).getD capacity +
        Int.fdiv ((now - (b.map TBRecord.stamp).getD now) * refillRate) interval)
    avail < cost →
      (TokenBucketStrategy.updateTokensSliding now capacity interval refillRate cost b).flag = 0 ∧
      (TokenBucketStrategy.updateTokensSliding now capacity interval refillRate cost b).remaining
        = avail ∧
      (TokenBucketStrategy.updateTokensSliding now capacity interval refillRate cost b).write
        = none := by
  intro avail h
  unfold_let avail at h ⊢
  cases b with
  | none =>
      simp only [Option.map_none', Option.getD_none] at h ⊢
      simp only [TokenBucketStrategy.updateTokensSliding]
      rw [if_pos h]
      exact ⟨rfl, rfl, rfl⟩
  | some r =>
      simp only [Option.map_some', Option.getD_some] at h ⊢
      simp only [TokenBucketStrategy.updateTokensSliding]
      rw [if_pos h]
      exact ⟨rfl, rfl, rfl⟩

/-- Requesting more than the stored balance in the fixed update script
fails without writing and reports the balance itself. -/
theorem TB_fixed_overRequest (now capacity windowSize cost : ℤ) (b : Option TBRecord) :
    let avail := (b.map TBRecord.tokens).getD capacity
    avail < cost →
      (TokenBucketStrategy.updateTokensFixed now capacity windowSize cost b).flag = 0 ∧
      (TokenBucketStrategy.updateTokensFixed now capacity windowSize cost b).remaining = avail ∧
      (TokenBucketStrategy.updateTokensFixed now capacity windowSize cost b).write = none := by
  intro avail h
  unfold_let avail at h ⊢
  cases b with
  | none =>
      simp only [Option.map_none', Option.getD_none] at h ⊢
      simp only [TokenBucketStrategy.updateTokensFixed]
      rw [if_pos h]
      exact ⟨rfl, rfl, rfl⟩
  | some r =>
      simp only [Option.map_some', Option.getD_some] at h ⊢
      simp only [TokenBucketStrategy.updateTokensFixed]
      rw [if_pos h]
      exact ⟨rfl, rfl, rfl⟩

/-- Claim C3: every token-bucket operation — decide and `updateTokens`, in
both FIXED and SLIDING modes, with any nonnegative cost — leaves the
stored token count with `0 ≤ tokens ≤ capacity`; and an `updateTokens`
request for more than the currently available tokens returns
`success:false` (flag `0`) and leaves both the stored record and the
reported remaining balance unchanged (the reported `remaining` is the
available balance itself). `cost` plays the configured `takeRate` for the
decide scripts and the caller-supplied amount for the update scripts,
which are textually identical. -/
theorem tokenBucket_invariant (now capacity interval refillRate cost : ℤ)
    (b : Option TBRecord) (hcost : 0 ≤ cost) (hb : TBInv capacity b) :
    TBInv capacity
      (applyWrite b
        (TokenBucketStrategy.slidingWindowScript now capacity interval refillRate cost b).write) ∧
    TBInv capacity
      (applyWrite b
        (TokenBucketStrategy.fixedWindowScript now capacity interval cost b).write) ∧
    TBInv capacity
      (applyWrite b
        (TokenBucketStrategy.updateTokensSliding now capacity interval refillRate cost b).write) ∧
    TBInv capacity
      (applyWrite b
        (TokenBucketStrategy.updateTokensFixed now capacity interval cost b).write) ∧
    (let availS := min capacity
      ((b.map TBRecord.tokens).getD capacity +
        Int.fdiv ((now - (b.map TBRecord.stamp).getD now) * refillRate) interval)
     availS < cost →
       (TokenBucketStrategy.updateTokensSliding now capacity interval refillRate cost b).flag
           = 0 ∧
       (TokenBucketStrategy.updateTokensSliding now capacity interval refillRate cost b).remaining
           = availS ∧
       (TokenBucketStrategy.updateTokensSliding now capacity interval refillRate cost b).write
           = none) ∧
    (let availF := (b.map TBRecord.tokens).getD capacity
     availF < cost →
       (TokenBucketStrategy.updateTokensFixed now capacity interval cost b).flag = 0 ∧
       (TokenBucketStrategy.updateTokensFixed now capacity interval cost b).remaining = availF ∧
       (TokenBucketStrategy.updateTokensFixed now capacity interval cost b).write = none) :=
  ⟨TB_sliding_inv now capacity interval refillRate cost b hcost hb,
   TB_fixed_inv now capacity interval cost b hcost hb,
   TB_sliding_inv now capacity interval refillRate cost b hcost hb,
   TB_fixed_inv now capacity interval cost b hcost hb,
   TB_sliding_overRequest now capacity interval refillRate cost b,
   TB_fixed_overRequest now capacity interval cost b⟩

/-- Witness for C3: the invariant holds after a concrete sliding decide
with capacity 10 and cost 2 on an absent record. -/
theorem tokenBucket_invariant_witness :
    TBInv 10
      (applyWrite none (TokenBucketStrategy.slidingWindowScript 0 10 1000 10 2 none).write) :=
  (tokenBucket_invariant 0 10 1000 10 2 none (by decide) trivial).1

/-- The short-circuiting evaluation returns exactly the reference
sequential results truncated at the first failure. -/
theorem Ratelimit.isAllowed_eq_stopAtFailure {σ : Type}
    (ls : List (σ → RateLimiterResult × σ)) : ∀ s : σ,
    (Ratelimit.isAllowed ls s).1 = stopAtFailure (evalSeq ls s) := by
  induction ls with
  | nil => intro s; rfl
  | cons l rest ih =>
      intro s
      simp only [Ratelimit.isAllowed, evalSeq, stopAtFailure]
      cases h : (l s).1.success
      · simp [h]
      · simp [h, ih]

/-- The returned list is never longer than the configured limiter list. -/
theorem Ratelimit.isAllowed_length_le {σ : Type}
    (ls : List (σ → RateLimiterResult × σ)) : ∀ s : σ,
    (Ratelimit.isAllowed ls s).1.length ≤ ls.length := by
  induction ls with
  | nil => intro s; simp [Ratelimit.isAllowed]
  | cons l rest ih =>
      intro s
      simp only [Ratelimit.isAllowed]
      cases h : (l s).1.success
      · simp [h]
      · simpa [h] using Nat.succ_le_succ (ih (l s).2)

/-- Everything before the last returned entry succeeded. -/
theorem stopAtFailure_dropLast (xs : List RateLimiterResult) :
    ∀ r ∈ (stopAtFailure xs).dropLast, r.success = true := by
  induction xs with
  | nil => simp [stopAtFailure]
  | cons x xs ih =>
      simp only [stopAtFailure]
      cases h : x.success
      · simp
      · cases hxs : stopAtFailure xs with
        | nil => simp
        | cons y ys =>
            intro r hr
            have hr2 : r ∈ (x :: y :: ys).dropLast := by simpa using hr
            rw [List.dropLast_cons₂] at hr2
            rcases List.mem_cons.mp hr2 with rfl | hr3
            · exact h
            · exact ih r (by rw [hxs]; exact hr3)

/-- The last returned entry is the failing one, unless every entry
succeeded. -/
theorem stopAtFailure_last (xs : List RateLimiterResult) :
    (∃ r, (stopAtFailure xs).getLast? = some r ∧ r.success = false) ∨
      ∀ r ∈ stopAtFailure xs, r.success = true := by
  induction xs with
  | nil => exact Or.inr (by simp [stopAtFailure])
  | cons x xs ih =>
      simp only [stopAtFailure]
      cases h : x.success
      · exact Or.inl ⟨x, by simp, h⟩
      · rcases ih with ⟨r, hr, hf⟩ | hall
        · left
          refine ⟨r, ?_, hf⟩
          cases hxs : stopAtFailure xs with
          | nil => rw [hxs] at hr; exact absurd hr (by simp)
          | cons y ys => rw [hxs] at hr; simpa [List.getLast?_cons_cons] using hr
        · right
          intro r hr
          rcases List.mem_cons.mp hr with rfl | hr2
          · exact h
          · exact hall r hr2

/-- Once a failure occurred, appending further limiters changes nothing:
they are never invoked. -/
theorem Ratelimit.isAllowed_append_of_failure {σ : Type}
    (ls ls2 : List (σ → RateLimiterResult × σ)) : ∀ s : σ,
    (∃ r ∈ (Ratelimit.isAllowed ls s).1, r.success = false) →
    Ratelimit.isAllowed (ls ++ ls2) s = Ratelimit.isAllowed ls s := by
  induction ls with
  | nil =>
      intro s hex
      obtain ⟨r, hr, _⟩ := hex
      exact absurd hr (by simp [Ratelimit.isAllowed])
  | cons l rest ih =>
      intro s hex
      simp only [List.cons_append, Ratelimit.isAllowed]
      cases h : (l s).1.success
      · simp [h]
      · have hex2 : ∃ r ∈ (Ratelimit.isAllowed rest (l s).2).1, r.success = false := by
          obtain ⟨r, hr, hf⟩ := hex
          simp only [Ratelimit.isAllowed, h, if_pos] at hr
          rcases List.mem_cons.mp hr with rfl | hr2
          · exact absurd h (by simp [hf])
          · exact ⟨r, hr2, hf⟩
        simp [h, ih (l s).2 hex2]

/-- Claim C4: a composite decide evaluates the limiters strictly in
configuration order, stops at the first `success:false`, never invokes the
limiters after the first failing one (appending further limiters changes
neither the results nor the final store state), and returns exactly the
results of the evaluated prefix: at most one per configured limiter, all
but the last successful, and the last one failing unless every returned
entry succeeded. -/
theorem composite_decide_spec {σ : Type}
    (limiters tail2 : List (σ → RateLimiterResult × σ)) (s : σ) :
    (Ratelimit.isAllowed limiters s).1 = stopAtFailure (evalSeq limiters s) ∧
    (Ratelimit.isAllowed limiters s).1.length ≤ limiters.length ∧
    (∀ r ∈ (Ratelimit.isAllowed limiters s).1.dropLast, r.success = true) ∧
    ((∃ r ∈ (Ratelimit.isAllowed limiters s).1, r.success = false) →
      Ratelimit.isAllowed (limiters ++ tail2) s = Ratelimit.isAllowed limiters s) ∧
    ((∃ r, (Ratelimit.isAllowed limiters s).1.getLast? = some r ∧ r.success = false) ∨
      ∀ r ∈ (Ratelimit.isAllowed limiters s).1, r.success = true) := by
  have he := Ratelimit.isAllowed_eq_stopAtFailure limiters s
  refine ⟨he, Ratelimit.isAllowed_length_le limiters s, ?_, ?_, ?_⟩
  · rw [he]
    exact stopAtFailure_dropLast (evalSeq limiters s)
  · exact Ratelimit.isAllowed_append_of_failure limiters tail2 s
  · rw [he]
    exact stopAtFailure_last (evalSeq limiters s)

/-- A limiter that always allows (used only to exercise the composite
combinator on concrete inputs). -/
def demoPass : ℤ → RateLimiterResult × ℤ :=
  fun s => ({ success := true, remaining := 5, reset := 0, limit := 5, name := "A" }, s + 1)

/-- A limiter that always rejects. -/
def demoFail : ℤ → RateLimiterResult × ℤ :=
  fun s => ({ success := false, remaining := 0, reset := 0, limit := 5, name := "B" }, s + 10)

/-- A limiter placed after the rejecting one. -/
def demoAfter : ℤ → RateLimiterResult × ℤ :=
  fun s => ({ success := true, remaining := 5, reset := 0, limit := 5, name := "C" }, s + 100)

/-- Witness for C4: with limiters `[pass, fail, after]`, the composite
decide equals the run on `[pass, fail]` alone — the third limiter is never
invoked. -/
theorem composite_decide_spec_witness :
    Ratelimit.isAllowed [demoPass, demoFail, demoAfter] (0 : ℤ)
      = Ratelimit.isAllowed [demoPass, demoFail] (0 : ℤ) := by
  have h := composite_decide_spec [demoPass, demoFail] [demoAfter] (0 : ℤ)
  exact h.2.2.2.1 (by decide)

/-- A FIXED-mode token bucket with capacity 1, takeRate 1, interval
1000 ms (used to exercise the reset round-trip on concrete inputs). -/
def tbFixedDemoCfg : TBConfig := ⟨1, 1000, 1, 1, WindowType.FIXED, "p"⟩

/-- Claim C5, FIXED-mode token bucket: `reset` builds its key as
`` `${prefix}${identifier}:${currentWindow}` `` while `getKey` builds
`` `${prefix}/bt/{identifier}/${windowStart}` ``, so `reset` deletes a key
the bucket never lives at.  Concretely: a first decide on an empty store
succeeds and depletes the bucket; `reset` then leaves the store unchanged
(the two key templates disagree), and the following decide fails even
though the first-ever decide for the identifier succeeded — the round-trip
of the claim does not hold in FIXED mode. -/
theorem tokenBucket_fixedReset_roundTrip_bug :
    TokenBucketStrategy.resetKeyFixed tbFixedDemoCfg "a" 0
        ≠ TokenBucketStrategy.getKey tbFixedDemoCfg "a" 0 ∧
    (TokenBucketStrategy.isAllowed tbFixedDemoCfg "a" 0 []).1.success = true ∧
    TokenBucketStrategy.reset tbFixedDemoCfg "a" 0
        (TokenBucketStrategy.isAllowed tbFixedDemoCfg "a" 0 []).2
      = (TokenBucketStrategy.isAllowed tbFixedDemoCfg "a" 0 []).2 ∧
    (TokenBucketStrategy.isAllowed tbFixedDemoCfg "a" 0
        (TokenBucketStrategy.reset tbFixedDemoCfg "a" 0
          (TokenBucketStrategy.isAllowed tbFixedDemoCfg "a" 0 []).2)).1.success = false := by
  decide

/-- Claim C6: for every identifier and amount, `updateTokens(identifier,
amount)` computes exactly the same result and performs exactly the same
store update as `isAllowed(identifier)` would with the configured
`takeRate` replaced by `amount`, in both FIXED and SLIDING modes. -/
theorem updateTokens_eq_decide_with_amount (cfg : TBConfig) (identifier : String)
    (amount now : ℤ) (st : KVStore TBRecord) :
    TokenBucketStrategy.updateTokens cfg identifier amount now st
      = TokenBucketStrategy.isAllowed { cfg with takeRate := amount } identifier now st := by
  cases cfg with
  | mk capacity interval takeRate refillRate windowType px =>
      cases windowType <;> rfl

/-- The spec's concurrency invariant: `0 ≤ count ≤ maxConcurrentRequests`
(absent key = count 0). -/
def csInv (maxConcurrent : ℤ) (cur : Option CSRecord) : Prop :=
  0 ≤ csCount cur ∧ csCount cur ≤ maxConcurrent

/-- One acquire or release preserves the slot-count invariant when at
least one slot is configured. -/
theorem csApply_inv (maxConcurrent timeout : ℤ) (hmax : 1 ≤ maxConcurrent) (op : CSOp)
    (cur : Option CSRecord) (h : csInv maxConcurrent cur) :
    csInv maxConcurrent (csApply maxConcurrent timeout op cur) := by
  obtain ⟨h0, h1⟩ := h
  cases op with
  | acquire =>
      cases cur with
      | none =>
          simp only [csApply, ConcurrencyStrategy.acquireScript, applyWrite, csInv, csCount]
          omega
      | some r =>
          simp only [csApply, ConcurrencyStrategy.acquireScript] at *
          split_ifs with hge
          · exact ⟨h0, h1⟩
          · simp only [applyWrite, csInv, csCount] at *
            omega
  | release =>
      cases cur with
      | none => exact ⟨h0, h1⟩
      | some r =>
          simp only [csApply, ConcurrencyStrategy.releaseScript] at *
          split_ifs with hle
          · simp [csInv, csCount]
            omega
          · simp only [csInv, csCount] at *
            omega

/-- The invariant holds after every prefix of a run started on the empty
state. -/
theorem csRun_inv (maxConcurrent timeout : ℤ) (hmax : 1 ≤ maxConcurrent)
    (ops : List CSOp) : ∀ cur, csInv maxConcurrent cur →
    csInv maxConcurrent (csRun maxConcurrent timeout ops cur) := by
  induction ops with
  | nil => intro cur h; exact h
  | cons op ops ih =>
      intro cur h
      exact ih _ (csApply_inv maxConcurrent timeout hmax op cur h)

/-- Claim C7 (amended to `maxConcurrentRequests ≥ 1`): for every sequence
of acquire and release operations on an identifier, starting with no
record, the stored slot count satisfies
`0 ≤ count ≤ maxConcurrentRequests` after each operation; acquire rejects
(and writes nothing) when `count ≥ max`; release deletes the record when
`count ≤ 1`, decrements it otherwise, and is a no-op when no record
exists.  (With `maxConcurrentRequests = 0` the code creates `count = 1` on
the first acquire, violating the bound — see the counterexample.) -/
theorem concurrency_count_invariant (maxConcurrent timeout : ℤ)
    (hmax : 1 ≤ maxConcurrent) (ops : List CSOp) :
    (0 ≤ csCount (csRun maxConcurrent timeout ops none) ∧
      csCount (csRun maxConcurrent timeout ops none) ≤ maxConcurrent) ∧
    (∀ r, maxConcurrent ≤ r.count →
      (ConcurrencyStrategy.acquireScript maxConcurrent timeout (some r)).flag = 0 ∧
      (ConcurrencyStrategy.acquireScript maxConcurrent timeout (some r)).write = none) ∧
    ConcurrencyStrategy.releaseScript none = none ∧
    (∀ r, r.count ≤ 1 → ConcurrencyStrategy.releaseScript (some r) = none) ∧
    (∀ r, 1 < r.count →
      ConcurrencyStrategy.releaseScript (some r) = some ⟨r.count - 1, r.ttl⟩) := by
  refine ⟨csRun_inv maxConcurrent timeout hmax ops none
    (by simp only [csInv, csCount]; omega), ?_, rfl, ?_, ?_⟩
  · intro r hge
    simp [ConcurrencyStrategy.acquireScript, if_pos hge]
  · intro r hle
    simp [ConcurrencyStrategy.releaseScript, if_pos hle]
  · intro r hgt
    simp [ConcurrencyStrategy.releaseScript, if_neg (by omega : ¬r.count ≤ 1)]

/-- Witness for C7: a concrete run `acquire, acquire, release, acquire`
with 2 slots stays within the bounds. -/
theorem concurrency_count_invariant_witness :
    0 ≤ csCount (csRun 2 30000 [CSOp.acquire, CSOp.acquire, CSOp.release, CSOp.acquire] none) ∧
    csCount (csRun 2 30000 [CSOp.acquire, CSOp.acquire, CSOp.release, CSOp.acquire] none) ≤ 2 :=
  (concurrency_count_invariant 2 30000 (by decide)
    [CSOp.acquire, CSOp.acquire, CSOp.release, CSOp.acquire]).1

/-- Counterexample for C7 as stated: with `maxConcurrentRequests = 0` the
very first acquire creates a record with `count = 1`, which exceeds the
configured maximum. -/
theorem concurrency_count_invariant_counterexample :
    csCount (csRun 0 30000 [CSOp.acquire] none) = 1 ∧
    ¬ csCount (csRun 0 30000 [CSOp.acquire] none) ≤ 0 := by
  decide

/-- Claim C8, evaluated at the failing input: with 1 configured slot and
one slot already held (`count = 1`), `wrap` rejects and throws
`RateLimitExceededError` whose message interpolates `result.remaining` —
which is always `0` on rejection — as the "Current count", not the actual
slot count `1`; the same outcome is produced whatever the wrapped
operation would do (it is never invoked), and the store is untouched. -/
theorem concurrency_wrap_reports_remaining_not_count :
    (ConcurrencyStrategy.wrap 1 30000 0 (Except.ok 42 : Except String ℤ) (some ⟨1, 30000⟩)
        = (WrapOutcome.rateLimitExceededError 0 1, some ⟨1, 30000⟩)) ∧
    (ConcurrencyStrategy.wrap 1 30000 0 (Except.error "boom" : Except String ℤ) (some ⟨1, 30000⟩)
        = (WrapOutcome.rateLimitExceededError 0 1, some ⟨1, 30000⟩)) ∧
    csCount (some ⟨1, 30000⟩) = 1 ∧ (0 : ℤ) ≠ 1 := by
  decide

/-- A constituent reset that fails with a store error. -/
def demoResetFail : ℤ → Except ResetError ℤ :=
  fun _ => Except.error (ResetError.storeError "boom")

/-- A constituent reset that succeeds (its effect: bump the state). -/
def demoResetOk : ℤ → Except ResetError ℤ :=
  fun s => Except.ok (s + 1)

/-- Counterexample for C9 as stated: when a constituent reset fails, the
composite `reset` raises that underlying store error itself — not a
`CompositeResetFailure` wrapping it (no such wrapper exists in the code) —
while the other limiter's reset still ran and its effect stands. -/
theorem composite_reset_no_wrapper_counterexample :
    (Ratelimit.reset [demoResetFail, demoResetOk] [(0 : ℤ), 0]).1
        = Except.error (ResetError.storeError "boom") ∧
    ResetError.isCompositeResetFailure (ResetError.storeError "boom") = false ∧
    (Ratelimit.reset [demoResetFail, demoResetOk] [(0 : ℤ), 0]).2 = [0, 1] :=
  ⟨rfl, rfl, rfl⟩

/-- Claim C9 (amended): the composite `reset` invokes the reset of every
configured limiter — each limiter's state is updated by its own reset even
when another limiter's reset fails, and completed resets are not rolled
back — and when at least one constituent reset fails, the first underlying
failure is raised to the caller unchanged (not wrapped in any
`CompositeResetFailure`). -/
theorem composite_reset_spec {σ ε : Type} (resets : List (σ → Except ε σ)) :
    ∀ ss : List σ, resets.length = ss.length →
    (Ratelimit.reset resets ss).2 =
      List.zipWith (fun f s =>
        match f s with
        | .ok s2 => s2
        | .error _ => s) resets ss ∧
    (Ratelimit.reset resets ss).1 =
      (match firstResetFailure resets ss with
       | some e => Except.error e
       | none => Except.ok ()) := by
  induction resets with
  | nil =>
      intro ss hlen
      cases ss with
      | nil => exact ⟨rfl, rfl⟩
      | cons s ss => exact absurd hlen (by simp)
  | cons f fs ih =>
      intro ss hlen
      cases ss with
      | nil => exact absurd hlen (by simp)
      | cons s ss =>
          have hlen2 : fs.length = ss.length := by simpa using hlen
          obtain ⟨ih1, ih2⟩ := ih ss hlen2
          simp only [Ratelimit.reset, firstResetFailure, List.zipWith]
          cases hf : f s with
          | ok s2 => simp [hf, ih1, ih2]
          | error e => simp [hf, ih1]

/-- Witness for C9: on a concrete two-limiter configuration where the
first reset fails, every limiter's state was still updated by its own
reset. -/
theorem composite_reset_spec_witness :
    (Ratelimit.reset [demoResetFail, demoResetOk] [(5 : ℤ), 7]).2
      = List.zipWith (fun f s =>
          match f s with
          | .ok s2 => s2
          | .error _ => s) [demoResetFail, demoResetOk] [(5 : ℤ), 7] :=
  (composite_reset_spec [demoResetFail, demoResetOk] [(5 : ℤ), 7] rfl).1

/-- Counterexample for C10 as stated: `ConcurrencyStrategy.isAllowed`
catches a store failure and replaces it with the generic
`new Error('Failed to check concurrency limit')` — the caller does not
receive the store's own error value. -/
theorem concurrency_isAllowed_replaces_store_error :
    ConcurrencyStrategy.isAllowedE 2 30000 0
        (Except.error (LimiterError.storeError "ETIMEDOUT"))
      = Except.error LimiterError.failedToCheckConcurrencyLimit ∧
    LimiterError.failedToCheckConcurrencyLimit ≠ LimiterError.storeError "ETIMEDOUT" := by
  exact ⟨rfl, by decide⟩

/-- Claim C10 (amended): every limiter operation propagates a store
failure to the caller unchanged — never converting it into a success or a
`success:false` result — except `ConcurrencyStrategy.isAllowed`, whose
catch block replaces any non-`RateLimitExceededError` failure with the
generic `Failed to check concurrency limit` error (still an error, never a
result). -/
theorem store_error_propagation (cfgF : FWConfig) (cfgT : TBConfig)
    (maxConcurrent timeout now : ℤ) (e : LimiterError) (m : String) :
    FixedWindowStrategy.isAllowedE cfgF now (Except.error e) = Except.error e ∧
    TokenBucketStrategy.isAllowedE cfgT (Except.error e) = Except.error e ∧
    TokenBucketStrategy.updateTokensE cfgT (Except.error e) = Except.error e ∧
    ConcurrencyStrategy.releaseE (Except.error e) = Except.error e ∧
    strategyResetE (Except.error e) = Except.error e ∧
    ConcurrencyStrategy.isAllowedE maxConcurrent timeout now
        (Except.error (LimiterError.storeError m))
      = Except.error LimiterError.failedToCheckConcurrencyLimit ∧
    ConcurrencyStrategy.isAllowedE maxConcurrent timeout now
        (Except.error (LimiterError.rateLimitExceededError m))
      = Except.error (LimiterError.rateLimitExceededError m) :=
  ⟨rfl, rfl, rfl, rfl, rfl, rfl, rfl⟩
